import Mathlib

/-!
# go-centrifuge: pending documents, ledger submission, signatures, anchoring

A shallow embedding of

* `pending/service.go` (the pending document service),
* `centrifuge/ethereum/geth_client.go` (`SubmitTransactionWithRetries`),
* `centrifuge/signatures/signatures.go` (`Sign`, `ValidateSignature`), and
* `centrifuge/coredocument/processor/processor.go` (`Anchor`),

with the properties of the specification stated and proved over it.

Go functions returning `(value, error)` are embedded as functions returning a
pair of options (`none` is Go's `nil`); the collaborators of a service (its
repository, the document service, a document) are the interfaces the Go code
calls through, embedded as structures of functions over an explicit state.
Every call to a collaborator is recorded in a trace, so that "is never called"
is a statement about the trace.
-/

namespace Centrifuge

/-- A Go byte slice. `bytes.Equal` is equality of lists (it does not tell
`nil` from the empty slice, and neither does a list). -/
abbrev Bytes := List Nat

/-- The `errors.Error` values the pending service returns or compares by
identity, and any other error of a collaborator. -/
inductive Error where
  /-- `pending.ErrPendingDocumentExists` -/
  | ErrPendingDocumentExists
  /-- `contextutil.ErrDIDMissingFromContext` -/
  | ErrDIDMissingFromContext
  /-- `documents.ErrDocumentNotFound` -/
  | ErrDocumentNotFound
  /-- `documents.ErrNotPatcher` -/
  | ErrNotPatcher
  /-- the `NotFound` of the pending repository -/
  | NotFound
  /-- any other error, by its message -/
  | other (msg : String)
  deriving DecidableEq, Repr

/-- A `jobs.JobID`, declared in package `jobs`. -/
abbrev JobID := Bytes

/-- `jobs.NilJobID()`, declared in package `jobs`: taken as the all-zero
identifier. The service returns it with every error of `Commit`. -/
def NilJobID : JobID := List.replicate 16 0

/-- `documents.UpdatePayload`, declared in package `documents`: the service
reads `DocumentID` only and hands the payload to the document service as it
is; `Data` stands for the rest of it. -/
structure UpdatePayload where
  DocumentID : Bytes
  Data : Bytes
  deriving DecidableEq, Repr

/-- Modelled from the spec: `documents.Status`, declared in package
`documents` (§3: "`status`: one of {Draft, Pending, Committed/Anchored}"). The
service only tests a status against `documents.Pending`. -/
inductive Status where
  | Draft
  | Pending
  | Committed
  deriving DecidableEq, Repr

/-- Modelled from the spec: the call context as package `contextutil` reads
it. A context carries the authenticated account's identity or none (§7,
`ContextMissing`: "no authenticated account in the call context"). -/
structure Context where
  account : Option Bytes
  deriving DecidableEq, Repr

/-- Modelled from the spec: `contextutil.AccountDID`, declared in package
`contextutil`: the account identity of the context, an error when the context
has none. -/
def AccountDID (ctx : Context) : Except Error Bytes :=
  match ctx.account with
  | some did => .ok did
  | none => .error Error.ErrDIDMissingFromContext

/-- The part of the `documents.Model` interface the service reads: a document
of type `M`, its roles of type `Role`, its transition rules of type `Rule`. -/
structure Model (M Role Rule : Type) where
  ID : M → Bytes
  CurrentVersion : M → Bytes
  GetRole : M → Bytes → Option Role × Option Error
  GetTransitionRule : M → Bytes → Option Rule × Option Error

/-- The `documents.Service` interface as the pending service calls it, over the
state `D` of the document service (the committed-document store and whatever
else it owns). -/
structure DocService (D M : Type) where
  GetCurrentVersion : D → Context → Bytes → Except Error M × D
  GetVersion : D → Context → Bytes → Bytes → Except Error M × D
  Derive : D → Context → UpdatePayload → Except Error M × D
  Commit : D → Context → M → Except Error JobID × D

/-- The `pending.Repository` interface, over the state `R` of the store.
`Get` is a read; the writes return the error (`none` for `nil`) and the new
state. -/
structure Repository (R M : Type) where
  Get : R → Bytes → Bytes → Except Error M
  Create : R → Bytes → Bytes → M → Option Error × R
  Update : R → Bytes → Bytes → M → Option Error × R
  Delete : R → Bytes → Bytes → Option Error × R

/-- Modelled from the spec: the records of the Pending Repository, the
implementation of the `Repository` interface that `service.go` is given (§3
`PendingRecord`: "the persisted draft, keyed by (accountID, documentID)"). -/
abbrev Records (M : Type) := List ((Bytes × Bytes) × M)

/-- The record of a key, if there is one. -/
def Records.find {M : Type} (r : Records M) (accountID docID : Bytes) : Option M :=
  List.lookup (accountID, docID) r

/-- The records without those of a key. -/
def Records.remove {M : Type} (r : Records M) (accountID docID : Bytes) : Records M :=
  r.filter (fun kv => kv.1 ≠ (accountID, docID))

/-- Modelled from the spec: the Pending Repository of §6, "`get(accountKey,
docID) -> Document|NotFound`; `create/update(accountKey, docID, Document) ->
ok|error`; `delete(accountKey, docID) -> ok|error`. Must enforce
create-uniqueness per key." The store is a map keyed by (accountID, docID).
`create` refuses a key that has a record; apart from that, whether a write
fails in the storage engine is an input, `failing`, and a write that fails
leaves the records as they are. -/
def mapRepository {M : Type} (failing : Bytes → Bytes → Bool) : Repository (Records M) M where
  Get r accountID docID :=
    match r.find accountID docID with
    | some doc => .ok doc
    | none => .error Error.NotFound
  Create r accountID docID doc :=
    if (r.find accountID docID).isSome then (some (Error.other "document already exists"), r)
    else if failing accountID docID then (some (Error.other "storage failure"), r)
    else (none, r ++ [((accountID, docID), doc)])
  Update r accountID docID doc :=
    if failing accountID docID then (some (Error.other "storage failure"), r)
    else (none, r.remove accountID docID ++ [((accountID, docID), doc)])
  Delete r accountID docID :=
    if failing accountID docID then (some (Error.other "storage failure"), r)
    else (none, r.remove accountID docID)

/-- A call of the pending service to one of its collaborators. -/
inductive Event (M : Type) where
  | repoGet (accountID docID : Bytes)
  | repoCreate (accountID docID : Bytes) (doc : M)
  | repoUpdate (accountID docID : Bytes) (doc : M)
  | repoDelete (accountID docID : Bytes)
  | srvGetCurrentVersion (docID : Bytes)
  | srvGetVersion (docID versionID : Bytes)
  | srvDerive (payload : UpdatePayload)
  | srvCommit (doc : M)
  deriving DecidableEq, Repr

/-- Is the event a `Delete` on the pending repository? -/
def Event.isRepoDelete {M : Type} : Event M → Bool
  | .repoDelete _ _ => true
  | _ => false

/-- Is the event an `Update` on the pending repository? -/
def Event.isRepoUpdate {M : Type} : Event M → Bool
  | .repoUpdate _ _ _ => true
  | _ => false

/-- What the service runs against: the state of the pending repository, the
state of the document service, and the calls made so far. -/
structure World (R D M : Type) where
  repo : R
  srv : D
  trace : List (Event M)

namespace pending

/-- The `service` struct: the two collaborators, and the document interface. -/
structure service (R D M Role Rule : Type) where
  docSrv : DocService D M
  pendingRepo : Repository R M
  model : Model M Role Rule

variable {R D M Role Rule : Type}

/-- `s.pendingRepo.Get(accountID, docID)`, recorded. -/
def repoGet (s : service R D M Role Rule) (w : World R D M) (accountID docID : Bytes) :
    Except Error M × World R D M :=
  (s.pendingRepo.Get w.repo accountID docID,
    { w with trace := w.trace ++ [Event.repoGet accountID docID] })

/-- `s.pendingRepo.Create(accountID, docID, doc)`, recorded. -/
def repoCreate (s : service R D M Role Rule) (w : World R D M) (accountID docID : Bytes)
    (doc : M) : Option Error × World R D M :=
  let r := s.pendingRepo.Create w.repo accountID docID doc
  (r.1, { w with repo := r.2, trace := w.trace ++ [Event.repoCreate accountID docID doc] })

/-- `s.pendingRepo.Update(accountID, docID, doc)`, recorded. -/
def repoUpdate (s : service R D M Role Rule) (w : World R D M) (accountID docID : Bytes)
    (doc : M) : Option Error × World R D M :=
  let r := s.pendingRepo.Update w.repo accountID docID doc
  (r.1, { w with repo := r.2, trace := w.trace ++ [Event.repoUpdate accountID docID doc] })

/-- `s.pendingRepo.Delete(accountID, docID)`, recorded. -/
def repoDelete (s : service R D M Role Rule) (w : World R D M) (accountID docID : Bytes) :
    Option Error × World R D M :=
  let r := s.pendingRepo.Delete w.repo accountID docID
  (r.1, { w with repo := r.2, trace := w.trace ++ [Event.repoDelete accountID docID] })

/-- `s.docSrv.GetCurrentVersion(ctx, docID)`, recorded. -/
def srvGetCurrentVersion (s : service R D M Role Rule) (w : World R D M) (ctx : Context)
    (docID : Bytes) : Except Error M × World R D M :=
  let r := s.docSrv.GetCurrentVersion w.srv ctx docID
  (r.1, { w with srv := r.2, trace := w.trace ++ [Event.srvGetCurrentVersion docID] })

/-- `s.docSrv.GetVersion(ctx, docID, versionID)`, recorded. -/
def srvGetVersion (s : service R D M Role Rule) (w : World R D M) (ctx : Context)
    (docID versionID : Bytes) : Except Error M × World R D M :=
  let r := s.docSrv.GetVersion w.srv ctx docID versionID
  (r.1, { w with srv := r.2, trace := w.trace ++ [Event.srvGetVersion docID versionID] })

/-- `s.docSrv.Derive(ctx, payload)`, recorded. -/
def srvDerive (s : service R D M Role Rule) (w : World R D M) (ctx : Context)
    (payload : UpdatePayload) : Except Error M × World R D M :=
  let r := s.docSrv.Derive w.srv ctx payload
  (r.1, { w with srv := r.2, trace := w.trace ++ [Event.srvDerive payload] })

/-- `s.docSrv.Commit(ctx, doc)`, recorded. -/
def srvCommit (s : service R D M Role Rule) (w : World R D M) (ctx : Context)
    (doc : M) : Except Error JobID × World R D M :=
  let r := s.docSrv.Commit w.srv ctx doc
  (r.1, { w with srv := r.2, trace := w.trace ++ [Event.srvCommit doc] })

/-- `service.getDocumentAndAccount`: the pending document of the context's
account and the account, or `ErrDIDMissingFromContext` when the context has no
account, or `ErrDocumentNotFound` when the repository's `Get` fails. Its
callers read the document and the account only when the error is `nil`. -/
def getDocumentAndAccount (s : service R D M Role Rule) (w : World R D M) (ctx : Context)
    (docID : Bytes) : Except Error (M × Bytes) × World R D M :=
  match AccountDID ctx with
  | .error _ => (.error Error.ErrDIDMissingFromContext, w)
  | .ok did =>
    match repoGet s w did docID with
    | (.error _, w1) => (.error Error.ErrDocumentNotFound, w1)
    | (.ok doc, w1) => (.ok (doc, did), w1)

/-- `service.Get`. -/
def Get (s : service R D M Role Rule) (w : World R D M) (ctx : Context) (docID : Bytes)
    (status : Status) : (Option M × Option Error) × World R D M :=
  if status ≠ Status.Pending then
    match srvGetCurrentVersion s w ctx docID with
    | (.ok doc, w1) => ((some doc, none), w1)
    | (.error e, w1) => ((none, some e), w1)
  else
    match AccountDID ctx with
    | .error _ => ((none, some Error.ErrDIDMissingFromContext), w)
    | .ok did =>
      match repoGet s w did docID with
      | (.ok doc, w1) => ((some doc, none), w1)
      | (.error e, w1) => ((none, some e), w1)

/-- `service.GetVersion`. -/
def GetVersion (s : service R D M Role Rule) (w : World R D M) (ctx : Context)
    (docID versionID : Bytes) : (Option M × Option Error) × World R D M :=
  match srvGetVersion s w ctx docID versionID with
  | (.ok doc, w1) => ((some doc, none), w1)
  | (.error _, w1) =>
    match AccountDID ctx with
    | .error _ => ((none, some Error.ErrDIDMissingFromContext), w1)
    | .ok accID =>
      match repoGet s w1 accID docID with
      | (.error _, w2) => ((none, some Error.ErrDocumentNotFound), w2)
      | (.ok doc, w2) =>
        if versionID ≠ s.model.CurrentVersion doc then
          ((none, some Error.ErrDocumentNotFound), w2)
        else ((some doc, none), w2)

/-- `service.Create`. -/
def Create (s : service R D M Role Rule) (w : World R D M) (ctx : Context)
    (payload : UpdatePayload) : (Option M × Option Error) × World R D M :=
  match AccountDID ctx with
  | .error _ => ((none, some Error.ErrDIDMissingFromContext), w)
  | .ok accID =>
    -- `if len(payload.DocumentID) > 0 { _, err := s.pendingRepo.Get(...) ... }`
    let found : Bool × World R D M :=
      if payload.DocumentID.length > 0 then
        match repoGet s w accID payload.DocumentID with
        | (.ok _, w1) => (true, w1)
        | (.error _, w1) => (false, w1)
      else (false, w)
    if found.1 then ((none, some Error.ErrPendingDocumentExists), found.2)
    else
      match srvDerive s found.2 ctx payload with
      | (.error e, w2) => ((none, some e), w2)
      | (.ok doc, w2) =>
        let r := repoCreate s w2 accID (s.model.ID doc) doc
        ((some doc, r.1), r.2)

/-- `service.Commit`. -/
def Commit (s : service R D M Role Rule) (w : World R D M) (ctx : Context)
    (docID : Bytes) : (Option M × JobID × Option Error) × World R D M :=
  match getDocumentAndAccount s w ctx docID with
  | (.error e, w1) => ((none, NilJobID, some e), w1)
  | (.ok (doc, accID), w1) =>
    match srvCommit s w1 ctx doc with
    | (.error e, w2) => ((none, NilJobID, some e), w2)
    | (.ok jobID, w2) =>
      let r := repoDelete s w2 accID docID
      ((some doc, jobID, r.1), r.2)

/-- `service.GetRole`. -/
def GetRole (s : service R D M Role Rule) (w : World R D M) (ctx : Context)
    (docID roleID : Bytes) : (Option Role × Option Error) × World R D M :=
  match getDocumentAndAccount s w ctx docID with
  | (.ok (doc, _), w1) => (s.model.GetRole doc roleID, w1)
  | (.error e, w1) =>
    if e = Error.ErrDIDMissingFromContext then ((none, some e), w1)
    else
      match srvGetCurrentVersion s w1 ctx docID with
      | (.error _, w2) => ((none, some Error.ErrDocumentNotFound), w2)
      | (.ok doc, w2) => (s.model.GetRole doc roleID, w2)

/-- `service.GetTransitionRule`. -/
def GetTransitionRule (s : service R D M Role Rule) (w : World R D M) (ctx : Context)
    (docID ruleID : Bytes) : (Option Rule × Option Error) × World R D M :=
  match getDocumentAndAccount s w ctx docID with
  | (.ok (doc, _), w1) => (s.model.GetTransitionRule doc ruleID, w1)
  | (.error e, w1) =>
    if e = Error.ErrDIDMissingFromContext then ((none, some e), w1)
    else
      match srvGetCurrentVersion s w1 ctx docID with
      | (.error _, w2) => ((none, some Error.ErrDocumentNotFound), w2)
      | (.ok doc, w2) => (s.model.GetTransitionRule doc ruleID, w2)

/-- `DefaultService`: the service over a document service and a repository. -/
def DefaultService (docSrv : DocService D M) (repo : Repository R M)
    (model : Model M Role Rule) : service R D M Role Rule :=
  { docSrv := docSrv, pendingRepo := repo, model := model }

/-- An example document service. Documents are numbers; its state counts the
documents it has committed. It knows the committed document `7` under the
identifier `[7]` with the version `[7, 0]`, derives the document `5`, and
commits when `commitOk`. -/
def exampleDocService (commitOk : Bool) : DocService Nat Nat where
  GetCurrentVersion n _ docID :=
    if docID = [7] then (.ok 7, n) else (.error (Error.other "document not found"), n)
  GetVersion n _ docID versionID :=
    if docID = [7] ∧ versionID = [7, 0] then (.ok 7, n)
    else (.error (Error.other "version not found"), n)
  Derive n _ _ := (.ok 5, n)
  Commit n _ _ :=
    if commitOk then (.ok [1], n + 1) else (.error (Error.other "anchoring failed"), n)

/-- An example document interface: the document `d` has the identifier `[d]`,
the current version `[d, 0]`, the single role `[1]` and the single transition
rule `[2]`. -/
def exampleModel : Model Nat Nat Nat where
  ID d := [d]
  CurrentVersion d := [d, 0]
  GetRole d roleID :=
    if roleID = [1] then (some (100 + d), none) else (none, some (Error.other "role not found"))
  GetTransitionRule d ruleID :=
    if ruleID = [2] then (some (200 + d), none) else (none, some (Error.other "rule not found"))

/-- An example service over the map repository, no write of which fails. -/
def exampleService (commitOk : Bool) : service (Records Nat) Nat Nat Nat Nat :=
  DefaultService (exampleDocService commitOk) (mapRepository (fun _ _ => false)) exampleModel

/-- An example world: the account `[1]` has the pending document `5` under the
identifier `[5]`; nothing has been called. -/
def exampleWorld : World (Records Nat) Nat Nat :=
  { repo := [(([1], [5]), 5)], srv := 0, trace := [] }

/-- `AttributeRule`: the attribute key label for which a rule is to be created,
and the identifier of the role that gets write access. -/
structure AttributeRule where
  KeyLabel : String
  RoleID : Bytes
  deriving DecidableEq, Repr

/-- The Go type `AddTransitionRules`, the list of attribute rules to be
created. (Go has a type and a method of this name; the method keeps it.) -/
structure AddTransitionRulesRequest where
  AttributeRules : List AttributeRule
  deriving DecidableEq, Repr

/-- What `AddTransitionRules` calls in package `documents`: `AttrKeyFromLabel`,
and the method `AddTransitionRuleForAttribute` of `documents.Model`, which
changes the document it is called on: it returns the rule or the error, and
the document as it is after the call. -/
structure RuleWriter (M Rule Key : Type) where
  AttrKeyFromLabel : String → Except Error Key
  AddTransitionRuleForAttribute : M → Bytes → Key → Except Error Rule × M

/-- The loop `for _, r := range addRules.AttributeRules` of
`AddTransitionRules`, over the rules still to go, the document in memory, and
the rules collected so far: the first error ends it. -/
def addRulesLoop {Key : Type} (ops : RuleWriter M Rule Key) :
    List AttributeRule → M → List Rule → Except Error (List Rule) × M
  | [], doc, rules => (.ok rules, doc)
  | r :: rest, doc, rules =>
    match ops.AttrKeyFromLabel r.KeyLabel with
    | .error e => (.error e, doc)
    | .ok key =>
      match ops.AddTransitionRuleForAttribute doc r.RoleID key with
      | (.error e, doc1) => (.error e, doc1)
      | (.ok rule, doc1) => addRulesLoop ops rest doc1 (rules ++ [rule])

/-- `service.AddTransitionRules`. The rules returned are a Go slice, `nil`
being the empty list. -/
def AddTransitionRules {Key : Type} (s : service R D M Role Rule) (ops : RuleWriter M Rule Key)
    (w : World R D M) (ctx : Context) (docID : Bytes) (addRules : AddTransitionRulesRequest) :
    (List Rule × Option Error) × World R D M :=
  match getDocumentAndAccount s w ctx docID with
  | (.error e, w1) => (([], some e), w1)
  | (.ok (doc, accID), w1) =>
    match addRulesLoop ops addRules.AttributeRules doc [] with
    | (.error e, _) => (([], some e), w1)
    | (.ok rules, doc1) =>
      let r := repoUpdate s w1 accID docID doc1
      ((rules, r.1), r.2)

/-- An example of the rule-writing calls on the example documents: a label is
a key unless it is empty; a rule for the role `[1]` is added, which changes
the document `d` into `d + 1`, and any other role is not found. -/
def exampleRuleWriter : RuleWriter Nat Nat String where
  AttrKeyFromLabel label :=
    if label = "" then .error (Error.other "empty label") else .ok label
  AddTransitionRuleForAttribute d roleID _ :=
    if roleID = [1] then (.ok (200 + d), d + 1) else (.error (Error.other "role not found"), d)

end pending

namespace ethereum

/-- `TransactionUnderpriced`. -/
def TransactionUnderpriced : String := "replacement transaction underpriced"

/-- `NonceTooLow`. -/
def NonceTooLow : String := "nonce too low"

/-- What `SubmitTransactionWithRetries` does to the outside, in order: an
invocation of the contract method (`f.Call(in)`), a `time.Sleep` of the retry
interval, and its two log lines. -/
inductive Ev where
  | call
  | sleep
  | logWarning
  | logError
  deriving DecidableEq, Repr

/-- The number of invocations of the contract method in a trace. -/
def invocations (t : List Ev) : Nat := t.count Ev.call

/-- The number of sleeps in a trace. -/
def sleeps (t : List Ev) : Nat := t.count Ev.sleep

/-- The variables of `SubmitTransactionWithRetries` that live across
iterations (`tx` and `err` are its named results), and what it has done so
far. -/
structure LoopState (Tx E : Type) where
  done : Bool
  current : Int
  tx : Option Tx
  err : Option E
  trace : List Ev

/-- One pass over a loop body either leaves the loop or goes around again. -/
inductive Iter (σ : Type) where
  | leave (final : σ)
  | again (next : σ)

/-- A loop, run for at most `fuel` passes over its body: `none` when the fuel
runs out before the loop is left. -/
def loop {σ : Type} (body : σ → Iter σ) : Nat → σ → Option σ
  | 0, _ => none
  | fuel + 1, st =>
    match body st with
    | Iter.leave final => some final
    | Iter.again next => loop body fuel next

variable {Tx E : Type}

/-- The body of `for !done { ... }`, the loop condition included. The contract
method is external: `call i` is what its invocation returns when it has been
invoked `i` times before, a transaction handle and an error, each possibly
`nil`. `errorText` is the `Error()` method of the error. -/
def loopBody (errorText : E → String) (maxTries : Int) (call : Nat → Option Tx × Option E)
    (st : LoopState Tx E) : Iter (LoopState Tx E) :=
  if st.done then Iter.leave st
  else if st.current ≥ maxTries then
    Iter.leave { st with trace := st.trace ++ [Ev.logError] }
  else
    let current := st.current + 1
    let result := call (invocations st.trace)
    let trace := st.trace ++ [Ev.call]
    let tx := result.1
    let err := result.2
    match err with
    | some e =>
      if errorText e = TransactionUnderpriced ∨ errorText e = NonceTooLow then
        Iter.again { done := st.done, current := current, tx := tx, err := err,
                     trace := trace ++ [Ev.logWarning, Ev.sleep] }
      else
        Iter.again { done := true, current := current, tx := tx, err := err, trace := trace }
    | none =>
      Iter.again { done := true, current := current, tx := tx, err := err, trace := trace }

/-- The state of `SubmitTransactionWithRetries` on entering its loop. -/
def initial : LoopState Tx E :=
  { done := false, current := 0, tx := none, err := none, trace := [] }

/-- `SubmitTransactionWithRetries`, with `maxTries` the configured
`GetEthereumMaxRetries()`: the state on return (its results are `tx` and
`err`), or `none` when `fuel` passes do not reach the return. -/
def SubmitTransactionWithRetries (errorText : E → String) (maxTries : Int)
    (call : Nat → Option Tx × Option E) (fuel : Nat) : Option (LoopState Tx E) :=
  loop (loopBody errorText maxTries call) fuel initial

/-- The error is one of the two the submitter retries on. -/
def isConflict (errorText : E → String) (e : E) : Prop :=
  errorText e = TransactionUnderpriced ∨ errorText e = NonceTooLow

/-- The trace of `k` failed attempts that are retried: each is an invocation,
the warning, and a sleep. -/
def retried : Nat → List Ev
  | 0 => []
  | k + 1 => [Ev.call, Ev.logWarning, Ev.sleep] ++ retried k

/-- An example contract method, its errors being their messages: the first
`k` invocations fail with "nonce too low", the later ones return the
transaction handle `42`. -/
def exampleCall (k : Nat) : Nat → Option Nat × Option String :=
  fun i => if i < k then (none, some NonceTooLow) else (some 42, none)

/-- An example contract method that always fails with "nonce too low". -/
def exampleConflict : Nat → Option Nat × Option String :=
  fun _ => (none, some NonceTooLow)

/-- An example contract method that always fails with "out of gas". -/
def exampleFatal : Nat → Option Nat × Option String :=
  fun _ => (none, some "out of gas")

end ethereum

set_option linter.dupNamespace false in
/-- `coredocumentpb.Signature`, the signature message of the protobuf
definitions. -/
structure Signature where
  EntityId : Bytes
  PublicKey : Bytes
  Signature : Bytes
  Timestamp : Nat
  deriving DecidableEq, Repr

/-- `coredocumentpb.CoreDocument`, the fields of the protobuf message that
`Anchor` reads or writes. -/
structure CoreDocument where
  DocumentIdentifier : Bytes
  CurrentIdentifier : Bytes
  NextIdentifier : Bytes
  DocumentRoot : Bytes
  SigningRoot : Bytes
  Signatures : List Signature
  deriving DecidableEq, Repr

/-- `config.IdentityConfig`. -/
structure IdentityConfig where
  ID : Bytes
  PublicKey : Bytes
  PrivateKey : Bytes
  deriving DecidableEq, Repr

/-- The two functions of the library `golang.org/x/crypto/ed25519` that are
called: `Sign(privateKey, message)` and `Verify(publicKey, message, sig)`. -/
structure Ed25519 where
  Sign : Bytes → Bytes → Bytes
  Verify : Bytes → Bytes → Bytes → Bool

/-- Correctness of the library for the key pairs `keyPair`: a signature made
with the private key of a pair verifies under its public key. -/
def Ed25519.Correct (ed : Ed25519) (keyPair : Bytes → Bytes → Prop) : Prop :=
  ∀ priv pub msg, keyPair priv pub → ed.Verify pub msg (ed.Sign priv msg) = true

namespace signatures

/-- The errors of package `signatures`: those it makes from a message
(`errors.New`, `fmt.Errorf`), and those of package `identity`, of type `Err`,
that it hands on. -/
inductive SigError (Err : Type) where
  | text (msg : String)
  | identity (e : Err)
  deriving DecidableEq, Repr

/-- What `ValidateSignature` calls in package `identity`: `NewCentID`, which
parses an identifier, and `ValidateKey`, which returns an error unless the key
is a valid key of the identity. -/
structure Identity (CentID Err : Type) where
  NewCentID : Bytes → Except Err CentID
  ValidateKey : CentID → Bytes → Option Err

variable {CentID Err : Type}

/-- `verifySignature`. -/
def verifySignature (ed : Ed25519) (pubKey message signature : Bytes) :
    Option (SigError Err) :=
  let valid := ed.Verify pubKey message signature
  if !valid then some (SigError.text "invalid signature") else none

/-- `ValidateSignature`. -/
def ValidateSignature (identity : Identity CentID Err) (ed : Ed25519)
    (signature : Signature) (message : Bytes) : Option (SigError Err) :=
  match identity.NewCentID signature.EntityId with
  | .error e => some (SigError.identity e)
  | .ok centID =>
    match identity.ValidateKey centID signature.PublicKey with
    | some e => some (SigError.identity e)
    | none => verifySignature ed signature.PublicKey message signature.Signature

/-- `Sign`; `now` is `utils.ToTimestamp(time.Now().UTC())` at the call. -/
def Sign (ed : Ed25519) (now : Nat) (idConfig : IdentityConfig) (payload : Bytes) :
    Signature :=
  let signature := ed.Sign idConfig.PrivateKey payload
  { EntityId := idConfig.ID, PublicKey := idConfig.PublicKey, Signature := signature,
    Timestamp := now }

/-- An example signature scheme, not ed25519 but correct in the same sense: a
key is its own partner, a signature is the key followed by the message. -/
def exampleEd25519 : Ed25519 where
  Sign priv msg := priv ++ msg
  Verify pub msg sig := decide (sig = pub ++ msg)

/-- The key pairs of the example scheme. -/
def exampleKeyPair (priv pub : Bytes) : Prop := priv = pub

/-- An example of package `identity`: an identifier is an identity when it
has six bytes, and the valid key of every identity is `[7, 7]`. -/
def exampleIdentity : Identity Bytes String where
  NewCentID id := if id.length = 6 then .ok id else .error "invalid length byte slice"
  ValidateKey _ key := if key = [7, 7] then none else some "key not found"

/-- An example identity configuration, with a key pair of the example
scheme. -/
def exampleIDConfig : IdentityConfig :=
  { ID := [1, 2, 3, 4, 5, 6], PublicKey := [7, 7], PrivateKey := [7, 7] }

end signatures

namespace coredocumentprocessor

/-- What `Anchor` does, in order: the steps it takes through other packages,
the signature it appends to the document, and its log lines. -/
inductive Step where
  | sliceToByte32
  | calculateSigningRoot
  | getIDConfig
  | appendSignature
  | repositoryCreate
  | logError
  | logInfo
  | logDebug
  deriving DecidableEq, Repr

/-- What `Anchor` calls outside its package, with errors of type `Err` and the
committed-document store in state `R`: `centerrors.NilError`,
`tools.SliceToByte32`, `coredocument.CalculateSigningRoot` (which writes to
the document: it returns the error and the document after the call),
`ed25519.GetIDConfig`, `Create` of the repository of core documents, the
signature library, and the clock. -/
structure Collaborators (R Err : Type) where
  NilError : Err
  SliceToByte32 : Bytes → Except Err Bytes
  CalculateSigningRoot : CoreDocument → Option Err × CoreDocument
  GetIDConfig : Except Err IdentityConfig
  Create : R → Bytes → CoreDocument → Option Err × R
  ed : Ed25519
  now : Nat

/-- What a call of `Anchor` leaves: the error it returns, the document behind
the pointer it was given, the committed-document store, and what it did. -/
structure Anchored (R Err : Type) where
  err : Option Err
  document : Option CoreDocument
  repo : R
  trace : List Step

variable {R Err : Type}

/-- `defaultProcessor.Anchor`; `document` is the pointer it is given, `none`
for `nil`. -/
def Anchor (c : Collaborators R Err) (repo : R) (document : Option CoreDocument) :
    Anchored R Err :=
  match document with
  | none => { err := some c.NilError, document := none, repo := repo, trace := [] }
  | some doc =>
    match c.SliceToByte32 doc.CurrentIdentifier with
    | .error e =>
      { err := some e, document := some doc, repo := repo,
        trace := [Step.sliceToByte32, Step.logError] }
    | .ok _ =>
      match c.CalculateSigningRoot doc with
      | (some e, doc1) =>
        { err := some e, document := some doc1, repo := repo,
          trace := [Step.sliceToByte32, Step.logInfo, Step.logDebug,
                    Step.calculateSigningRoot, Step.logError] }
      | (none, doc1) =>
        match c.GetIDConfig with
        | .error e =>
          { err := some e, document := some doc1, repo := repo,
            trace := [Step.sliceToByte32, Step.logInfo, Step.logDebug,
                      Step.calculateSigningRoot, Step.getIDConfig] }
        | .ok idConfig =>
          let sig := signatures.Sign c.ed c.now idConfig doc1.SigningRoot
          let doc2 := { doc1 with Signatures := doc1.Signatures ++ [sig] }
          let r := c.Create repo doc2.CurrentIdentifier doc2
          { err := r.1, document := some doc2, repo := r.2,
            trace := [Step.sliceToByte32, Step.logInfo, Step.logDebug,
                      Step.calculateSigningRoot, Step.getIDConfig, Step.appendSignature,
                      Step.repositoryCreate] }

/-- Are the signing of the document and the write to the store absent from a
trace? -/
def notSignedNorStored (t : List Step) : Prop :=
  Step.appendSignature ∉ t ∧ Step.repositoryCreate ∉ t

/-- An example of the collaborators of `Anchor`, the store being the list of
the documents created, by identifier: an identifier converts when it has 32
bytes, the signing root of a document is computed unless the document has no
identifier of its own, the identity configuration is the example one, and the
store refuses an identifier it has. -/
def exampleCollaborators : Collaborators (List (Bytes × CoreDocument)) String where
  NilError := "nil document"
  SliceToByte32 b := if b.length = 32 then .ok b else .error "invalid length"
  CalculateSigningRoot doc :=
    if doc.DocumentIdentifier = [] then (some "no document identifier", doc)
    else (none, { doc with SigningRoot := [9] })
  GetIDConfig := .ok signatures.exampleIDConfig
  Create r id doc :=
    if (r.lookup id).isSome then (some "document already exists", r) else (none, r ++ [(id, doc)])
  ed := signatures.exampleEd25519
  now := 1000

/-- An example document, its current identifier being 32 bytes long. -/
def exampleDocument : CoreDocument :=
  { DocumentIdentifier := [1], CurrentIdentifier := List.replicate 32 2,
    NextIdentifier := [3], DocumentRoot := [], SigningRoot := [], Signatures := [] }

end coredocumentprocessor

end Centrifuge

/-! ## The pending document service -/

namespace Centrifuge

namespace pending

variable {R D M Role Rule : Type}

theorem find_remove (r : Records M) (accountID docID : Bytes) :
    (r.remove accountID docID).find accountID docID = none := by
  unfold Records.find Records.remove
  induction r with
  | nil => rfl
  | cons kv rest ih =>
    obtain ⟨k, v⟩ := kv
    rw [List.filter_cons]
    split
    · rename_i h
      have hne : ((accountID, docID) == k) = false := by
        have h1 : k ≠ (accountID, docID) := by simpa using h
        exact beq_false_of_ne (fun h2 => h1 h2.symm)
      rw [List.lookup_cons, hne]
      exact ih
    · exact ih

/-- C1. `Create` for an account and a non-empty `DocumentID` under which the
pending repository holds a record returns `ErrPendingDocumentExists`; the only
call it makes is the repository's `Get`: the document service is not asked to
derive a document (its state is as before), and the repository is unchanged. -/
theorem Create_existing_pending (ds : DocService D M) (m : Model M Role Rule)
    (failing : Bytes → Bytes → Bool) (w : World (Records M) D M) (ctx : Context)
    (payload : UpdatePayload) (accID : Bytes) (doc : M)
    (hacc : ctx.account = some accID)
    (hid : 0 < payload.DocumentID.length)
    (hrec : w.repo.find accID payload.DocumentID = some doc) :
    Create (DefaultService ds (mapRepository failing) m) w ctx payload =
      ((none, some Error.ErrPendingDocumentExists),
        { repo := w.repo, srv := w.srv,
          trace := w.trace ++ [Event.repoGet accID payload.DocumentID] }) := by
  simp [Create, AccountDID, hacc, hid, repoGet, DefaultService, mapRepository, hrec]

/-- Witness for C1, on the example world. -/
theorem Create_existing_pending_witness :
    Create (exampleService true) exampleWorld ⟨some [1]⟩ ⟨[5], []⟩ =
      ((none, some Error.ErrPendingDocumentExists),
        { repo := [(([1], [5]), 5)], srv := 0, trace := [Event.repoGet [1] [5]] }) :=
  Create_existing_pending (exampleDocService true) exampleModel (fun _ _ => false)
    exampleWorld ⟨some [1]⟩ ⟨[5], []⟩ [1] 5 rfl (by decide) rfl

/-- C2. When `Commit` finds the pending record and the document service's
`Commit` fails, the service returns that error; the calls it makes are the
repository's `Get` and the document service's `Commit`, no `Delete`, and the
repository (so the record of the account and the document) is as before. -/
theorem Commit_failure_keeps_record (s : service R D M Role Rule) (w : World R D M)
    (ctx : Context) (docID accID : Bytes) (doc : M) (e : Error)
    (hacc : ctx.account = some accID)
    (hget : s.pendingRepo.Get w.repo accID docID = .ok doc)
    (hcommit : (s.docSrv.Commit w.srv ctx doc).1 = .error e) :
    (Commit s w ctx docID).1 = (none, NilJobID, some e) ∧
    (Commit s w ctx docID).2.trace
      = w.trace ++ [Event.repoGet accID docID, Event.srvCommit doc] ∧
    (∀ ev ∈ (Commit s w ctx docID).2.trace, ev ∈ w.trace ∨ ev.isRepoDelete = false) ∧
    (Commit s w ctx docID).2.repo = w.repo ∧
    s.pendingRepo.Get (Commit s w ctx docID).2.repo accID docID = .ok doc := by
  have h : Commit s w ctx docID =
      ((none, NilJobID, some e),
        { repo := w.repo, srv := (s.docSrv.Commit w.srv ctx doc).2,
          trace := w.trace ++ [Event.repoGet accID docID, Event.srvCommit doc] }) := by
    cases hc : s.docSrv.Commit w.srv ctx doc with
    | mk res d =>
      rw [hc] at hcommit
      simp only at hcommit
      subst hcommit
      simp [Commit, getDocumentAndAccount, AccountDID, hacc, repoGet, hget, srvCommit, hc]
  rw [h]
  refine ⟨rfl, rfl, ?_, rfl, hget⟩
  intro ev hev
  simp only [List.mem_append, List.mem_cons, List.mem_singleton, List.not_mem_nil,
    or_false] at hev
  rcases hev with hev | hev | hev
  · exact Or.inl hev
  · subst hev; exact Or.inr rfl
  · subst hev; exact Or.inr rfl

/-- Witness for C2: the example service whose document service fails to
commit, on the example world. -/
theorem Commit_failure_keeps_record_witness :
    (Commit (exampleService false) exampleWorld ⟨some [1]⟩ [5]).1
      = (none, NilJobID, some (Error.other "anchoring failed")) ∧
    (Commit (exampleService false) exampleWorld ⟨some [1]⟩ [5]).2.repo = [(([1], [5]), 5)] :=
  have h := Commit_failure_keeps_record (exampleService false) exampleWorld ⟨some [1]⟩ [5] [1] 5
    (Error.other "anchoring failed") rfl rfl rfl
  ⟨h.1, h.2.2.2.1⟩

/-- C3. Over the map repository: when a `Commit` of a document with a pending
record succeeds (it returns no error, so the document service's `Commit` and
the repository's `Delete` both succeeded), a second `Commit` with the same
context and identifier returns `ErrDocumentNotFound`; the only call it makes
is the repository's `Get`, so the document service's `Commit` is not invoked
again and its state is as the first `Commit` left it. -/
theorem Commit_twice (ds : DocService D M) (m : Model M Role Rule)
    (failing : Bytes → Bytes → Bool) (w : World (Records M) D M) (ctx : Context)
    (docID accID : Bytes) (doc : M)
    (hacc : ctx.account = some accID)
    (hrec : w.repo.find accID docID = some doc)
    (hfirst : (Commit (DefaultService ds (mapRepository failing) m) w ctx docID).1.2.2 = none) :
    (Commit (DefaultService ds (mapRepository failing) m)
        (Commit (DefaultService ds (mapRepository failing) m) w ctx docID).2 ctx docID).1
      = (none, NilJobID, some Error.ErrDocumentNotFound) ∧
    (Commit (DefaultService ds (mapRepository failing) m)
        (Commit (DefaultService ds (mapRepository failing) m) w ctx docID).2 ctx docID).2.trace
      = (Commit (DefaultService ds (mapRepository failing) m) w ctx docID).2.trace
          ++ [Event.repoGet accID docID] ∧
    (Commit (DefaultService ds (mapRepository failing) m)
        (Commit (DefaultService ds (mapRepository failing) m) w ctx docID).2 ctx docID).2.srv
      = (Commit (DefaultService ds (mapRepository failing) m) w ctx docID).2.srv := by
  cases hc : ds.Commit w.srv ctx doc with
  | mk res d =>
    cases res with
    | error e =>
      simp [Commit, getDocumentAndAccount, AccountDID, hacc, repoGet, DefaultService,
        mapRepository, hrec, srvCommit, hc] at hfirst
    | ok jobID =>
      by_cases hf : failing accID docID = true
      · simp [Commit, getDocumentAndAccount, AccountDID, hacc, repoGet, DefaultService,
          mapRepository, hrec, srvCommit, hc, repoDelete, hf] at hfirst
      · simp [Commit, getDocumentAndAccount, AccountDID, hacc, repoGet, DefaultService,
          mapRepository, hrec, srvCommit, hc, repoDelete, hf, find_remove]

/-- Witness for C3, on the example world. -/
theorem Commit_twice_witness :
    (Commit (exampleService true) (Commit (exampleService true) exampleWorld ⟨some [1]⟩ [5]).2
        ⟨some [1]⟩ [5]).1
      = (none, NilJobID, some Error.ErrDocumentNotFound) :=
  (Commit_twice (exampleDocService true) exampleModel (fun _ _ => false) exampleWorld
    ⟨some [1]⟩ [5] [1] 5 rfl rfl rfl).1

/-- C8. `GetVersion` over the map repository: when the document service's
`GetVersion` succeeds, its document is returned; when it fails and the context
has an account, a document is returned if and only if it is the pending record
of the account and the identifier and its current version equals the requested
version, and when there is no such record the result is
`ErrDocumentNotFound`. -/
theorem GetVersion_committed_then_pending (ds : DocService D M) (m : Model M Role Rule)
    (failing : Bytes → Bytes → Bool) (w : World (Records M) D M) (ctx : Context)
    (docID versionID : Bytes) :
    (∀ doc, (ds.GetVersion w.srv ctx docID versionID).1 = .ok doc →
      (GetVersion (DefaultService ds (mapRepository failing) m) w ctx docID versionID).1
        = (some doc, none)) ∧
    (∀ e accID, (ds.GetVersion w.srv ctx docID versionID).1 = .error e →
      ctx.account = some accID →
      (∀ pdoc,
        (GetVersion (DefaultService ds (mapRepository failing) m) w ctx docID versionID).1
            = (some pdoc, none)
          ↔ (w.repo.find accID docID = some pdoc ∧ m.CurrentVersion pdoc = versionID)) ∧
      ((¬ ∃ pdoc, w.repo.find accID docID = some pdoc ∧ m.CurrentVersion pdoc = versionID) →
        (GetVersion (DefaultService ds (mapRepository failing) m) w ctx docID versionID).1
          = (none, some Error.ErrDocumentNotFound))) := by
  cases hv : ds.GetVersion w.srv ctx docID versionID with
  | mk res d =>
    refine ⟨?_, ?_⟩
    · intro doc hdoc
      simp only at hdoc
      subst hdoc
      simp [GetVersion, srvGetVersion, DefaultService, hv]
    · intro e accID he hacc
      simp only at he
      subst he
      cases hfind : w.repo.find accID docID with
      | none =>
        simp [GetVersion, srvGetVersion, DefaultService, hv, AccountDID, hacc, repoGet,
          mapRepository, hfind]
      | some p =>
        by_cases hcur : versionID = m.CurrentVersion p
        · subst hcur
          simp [GetVersion, srvGetVersion, DefaultService, hv, AccountDID, hacc, repoGet,
            mapRepository, hfind]
        · have hcur2 : ¬ m.CurrentVersion p = versionID := fun h => hcur h.symm
          simp [GetVersion, srvGetVersion, DefaultService, hv, AccountDID, hacc, repoGet,
            mapRepository, hfind, hcur]
          exact hcur2

/-- Witness for C8, on the example world: the committed version `[7, 0]` of
`[7]` is found in the document service; the version `[5, 0]` of `[5]` is the
pending document; the version `[5, 1]` of `[5]` is not found. -/
theorem GetVersion_committed_then_pending_witness :
    (GetVersion (exampleService true) exampleWorld ⟨some [1]⟩ [7] [7, 0]).1 = (some 7, none) ∧
    (GetVersion (exampleService true) exampleWorld ⟨some [1]⟩ [5] [5, 0]).1 = (some 5, none) ∧
    (GetVersion (exampleService true) exampleWorld ⟨some [1]⟩ [5] [5, 1]).1
      = (none, some Error.ErrDocumentNotFound) :=
  ⟨(GetVersion_committed_then_pending (exampleDocService true) exampleModel (fun _ _ => false)
      exampleWorld ⟨some [1]⟩ [7] [7, 0]).1 7 rfl,
   (((GetVersion_committed_then_pending (exampleDocService true) exampleModel (fun _ _ => false)
      exampleWorld ⟨some [1]⟩ [5] [5, 0]).2 (Error.other "version not found") [1] rfl rfl).1 5).2
      ⟨rfl, rfl⟩,
   ((GetVersion_committed_then_pending (exampleDocService true) exampleModel (fun _ _ => false)
      exampleWorld ⟨some [1]⟩ [5] [5, 1]).2 (Error.other "version not found") [1] rfl rfl).2
      (by decide)⟩

/-- C9, as stated, fails: with no account in the context, `GetVersion` returns
the committed document `7` of the example document service, and `Get` with the
status `Committed` returns it too; neither result is
`ErrDIDMissingFromContext`, and each comes from a call to the document
service. -/
theorem lookup_without_account_reaches_committed_store :
    GetVersion (exampleService true) exampleWorld ⟨none⟩ [7] [7, 0]
      = ((some 7, none),
          { repo := [(([1], [5]), 5)], srv := 0, trace := [Event.srvGetVersion [7] [7, 0]] }) ∧
    (GetVersion (exampleService true) exampleWorld ⟨none⟩ [7] [7, 0]).1.2
      ≠ some Error.ErrDIDMissingFromContext ∧
    Get (exampleService true) exampleWorld ⟨none⟩ [7] Status.Committed
      = ((some 7, none),
          { repo := [(([1], [5]), 5)], srv := 0, trace := [Event.srvGetCurrentVersion [7]] }) ∧
    (Get (exampleService true) exampleWorld ⟨none⟩ [7] Status.Committed).1.2
      ≠ some Error.ErrDIDMissingFromContext := by
  refine ⟨rfl, ?_, rfl, ?_⟩
  · decide
  · decide

/-- C9, amended. With no account in the context: `GetRole`,
`GetTransitionRule` and `Get` with the status `Pending` return
`ErrDIDMissingFromContext` and call neither the pending repository nor the
document service (the world is as before); `GetVersion` asks the document
service first, returns its document when it has one, and when it has none
returns `ErrDIDMissingFromContext` having called nothing else; `Get` with
another status returns what the document service's `GetCurrentVersion`
returns. -/
theorem lookup_without_account (s : service R D M Role Rule) (w : World R D M)
    (ctx : Context) (docID : Bytes) (hacc : ctx.account = none) :
    (∀ roleID, GetRole s w ctx docID roleID
      = ((none, some Error.ErrDIDMissingFromContext), w)) ∧
    (∀ ruleID, GetTransitionRule s w ctx docID ruleID
      = ((none, some Error.ErrDIDMissingFromContext), w)) ∧
    Get s w ctx docID Status.Pending = ((none, some Error.ErrDIDMissingFromContext), w) ∧
    (∀ versionID e, (s.docSrv.GetVersion w.srv ctx docID versionID).1 = .error e →
      GetVersion s w ctx docID versionID
        = ((none, some Error.ErrDIDMissingFromContext),
            { repo := w.repo, srv := (s.docSrv.GetVersion w.srv ctx docID versionID).2,
              trace := w.trace ++ [Event.srvGetVersion docID versionID] })) ∧
    (∀ versionID doc, (s.docSrv.GetVersion w.srv ctx docID versionID).1 = .ok doc →
      (GetVersion s w ctx docID versionID).1 = (some doc, none)) ∧
    (∀ status doc, status ≠ Status.Pending →
      (s.docSrv.GetCurrentVersion w.srv ctx docID).1 = .ok doc →
      (Get s w ctx docID status).1 = (some doc, none)) ∧
    (∀ status e, status ≠ Status.Pending →
      (s.docSrv.GetCurrentVersion w.srv ctx docID).1 = .error e →
      (Get s w ctx docID status).1 = (none, some e)) := by
  refine ⟨?_, ?_, ?_, ?_, ?_, ?_, ?_⟩
  · intro roleID
    simp [GetRole, getDocumentAndAccount, AccountDID, hacc]
  · intro ruleID
    simp [GetTransitionRule, getDocumentAndAccount, AccountDID, hacc]
  · simp [Get, AccountDID, hacc]
  · intro versionID e he
    cases hv : s.docSrv.GetVersion w.srv ctx docID versionID with
    | mk res d =>
      rw [hv] at he
      simp only at he
      subst he
      simp [GetVersion, srvGetVersion, hv, AccountDID, hacc]
  · intro versionID doc hd
    cases hv : s.docSrv.GetVersion w.srv ctx docID versionID with
    | mk res d =>
      rw [hv] at hd
      simp only at hd
      subst hd
      simp [GetVersion, srvGetVersion, hv]
  · intro status doc hs hd
    cases hv : s.docSrv.GetCurrentVersion w.srv ctx docID with
    | mk res d =>
      rw [hv] at hd
      simp only at hd
      subst hd
      simp [Get, hs, srvGetCurrentVersion, hv]
  · intro status e hs he
    cases hv : s.docSrv.GetCurrentVersion w.srv ctx docID with
    | mk res d =>
      rw [hv] at he
      simp only at he
      subst he
      simp [Get, hs, srvGetCurrentVersion, hv]

/-- Witness for C9 as amended, on the example world: without an account,
`GetRole` of the pending document `[5]` fails with the context error, and so
does `GetVersion` of a version the document service does not have. -/
theorem lookup_without_account_witness :
    GetRole (exampleService true) exampleWorld ⟨none⟩ [5] [1]
      = ((none, some Error.ErrDIDMissingFromContext), exampleWorld) ∧
    GetVersion (exampleService true) exampleWorld ⟨none⟩ [5] [5, 0]
      = ((none, some Error.ErrDIDMissingFromContext),
          { repo := [(([1], [5]), 5)], srv := 0, trace := [Event.srvGetVersion [5] [5, 0]] }) :=
  have h := lookup_without_account (exampleService true) exampleWorld ⟨none⟩ [5] rfl
  ⟨h.1 [1], h.2.2.2.1 [5, 0] (Error.other "version not found") rfl⟩

/-- C10. `GetRole` and `GetTransitionRule` with an account in the context, over
the map repository: when the repository holds the document, the role (the
rule) is that of the pending document, and the only call made is the
repository's `Get`, the document service is not consulted; when it does not,
the role (the rule) is that of the document service's current version; and
when the document service has none either, the result is
`ErrDocumentNotFound`. -/
theorem GetRole_GetTransitionRule_fallback (ds : DocService D M) (m : Model M Role Rule)
    (failing : Bytes → Bytes → Bool) (w : World (Records M) D M) (ctx : Context)
    (docID id accID : Bytes) (hacc : ctx.account = some accID) :
    (∀ pdoc, w.repo.find accID docID = some pdoc →
      GetRole (DefaultService ds (mapRepository failing) m) w ctx docID id
        = (m.GetRole pdoc id,
            { repo := w.repo, srv := w.srv, trace := w.trace ++ [Event.repoGet accID docID] }) ∧
      GetTransitionRule (DefaultService ds (mapRepository failing) m) w ctx docID id
        = (m.GetTransitionRule pdoc id,
            { repo := w.repo, srv := w.srv,
              trace := w.trace ++ [Event.repoGet accID docID] })) ∧
    (∀ cdoc, w.repo.find accID docID = none →
      (ds.GetCurrentVersion w.srv ctx docID).1 = .ok cdoc →
      (GetRole (DefaultService ds (mapRepository failing) m) w ctx docID id).1
        = m.GetRole cdoc id ∧
      (GetTransitionRule (DefaultService ds (mapRepository failing) m) w ctx docID id).1
        = m.GetTransitionRule cdoc id) ∧
    (∀ e, w.repo.find accID docID = none →
      (ds.GetCurrentVersion w.srv ctx docID).1 = .error e →
      (GetRole (DefaultService ds (mapRepository failing) m) w ctx docID id).1
        = (none, some Error.ErrDocumentNotFound) ∧
      (GetTransitionRule (DefaultService ds (mapRepository failing) m) w ctx docID id).1
        = (none, some Error.ErrDocumentNotFound)) := by
  refine ⟨?_, ?_, ?_⟩
  · intro pdoc hfind
    simp [GetRole, GetTransitionRule, getDocumentAndAccount, AccountDID, hacc, repoGet,
      DefaultService, mapRepository, hfind]
  · intro cdoc hfind hc
    cases hv : ds.GetCurrentVersion w.srv ctx docID with
    | mk res d =>
      rw [hv] at hc
      simp only at hc
      subst hc
      simp [GetRole, GetTransitionRule, getDocumentAndAccount, AccountDID, hacc, repoGet,
        DefaultService, mapRepository, hfind, srvGetCurrentVersion, hv]
  · intro e hfind hc
    cases hv : ds.GetCurrentVersion w.srv ctx docID with
    | mk res d =>
      rw [hv] at hc
      simp only at hc
      subst hc
      simp [GetRole, GetTransitionRule, getDocumentAndAccount, AccountDID, hacc, repoGet,
        DefaultService, mapRepository, hfind, srvGetCurrentVersion, hv]

/-- Witness for C10, on the example world: the role `[1]` of `[5]` is read from
the pending document, the rule `[2]` of `[7]` from the committed document, and
the role `[1]` of the unknown `[9]` is not found. -/
theorem GetRole_GetTransitionRule_fallback_witness :
    GetRole (exampleService true) exampleWorld ⟨some [1]⟩ [5] [1]
      = ((some 105, none),
          { repo := [(([1], [5]), 5)], srv := 0, trace := [Event.repoGet [1] [5]] }) ∧
    (GetTransitionRule (exampleService true) exampleWorld ⟨some [1]⟩ [7] [2]).1
      = (some 207, none) ∧
    (GetRole (exampleService true) exampleWorld ⟨some [1]⟩ [9] [1]).1
      = (none, some Error.ErrDocumentNotFound) :=
  ⟨((GetRole_GetTransitionRule_fallback (exampleDocService true) exampleModel
      (fun _ _ => false) exampleWorld ⟨some [1]⟩ [5] [1] [1] rfl).1 5 rfl).1,
   ((GetRole_GetTransitionRule_fallback (exampleDocService true) exampleModel
      (fun _ _ => false) exampleWorld ⟨some [1]⟩ [7] [2] [1] rfl).2.1 7 rfl rfl).2,
   ((GetRole_GetTransitionRule_fallback (exampleDocService true) exampleModel
      (fun _ _ => false) exampleWorld ⟨some [1]⟩ [9] [1] [1] rfl).2.2
      (Error.other "document not found") rfl rfl).1⟩

/-- The loop over a list of rules whose first part is applied without error
goes on with the rest, on the document and the rules that part leaves. -/
theorem addRulesLoop_append {Key : Type} (ops : RuleWriter M Rule Key)
    (pre rest : List AttributeRule) :
    ∀ (doc docK : M) (rules applied : List Rule),
      addRulesLoop ops pre doc rules = (.ok applied, docK) →
      addRulesLoop ops (pre ++ rest) doc rules = addRulesLoop ops rest docK applied := by
  induction pre with
  | nil =>
    intro doc docK rules applied h
    simp only [addRulesLoop, Prod.mk.injEq, Except.ok.injEq] at h
    obtain ⟨h1, h2⟩ := h
    subst h1 h2
    rfl
  | cons r pre ih =>
    intro doc docK rules applied h
    simp only [List.cons_append, addRulesLoop] at h ⊢
    cases hk : ops.AttrKeyFromLabel r.KeyLabel with
    | error e => simp [hk] at h
    | ok key =>
      cases ha : ops.AddTransitionRuleForAttribute doc r.RoleID key with
      | mk res doc1 =>
        cases res with
        | error e => simp [hk, ha] at h
        | ok rule =>
          simp only [hk, ha] at h ⊢
          exact ih doc1 docK (rules ++ [rule]) applied h

/-- C11. `AddTransitionRules` on a request in which a rule fails, after any
number of rules of the same request that were applied: the key label of the
rule is refused, or `AddTransitionRuleForAttribute` fails on the document as
the earlier rules left it. The service returns that error and no rules; the
only call it makes is the repository's `Get`, no `Update`, and the repository
is as before: it still holds the document it held. -/
theorem AddTransitionRules_failure_no_update {Key : Type} (s : service R D M Role Rule)
    (ops : RuleWriter M Rule Key) (w : World R D M) (ctx : Context) (docID accID : Bytes)
    (doc docK : M) (pre post : List AttributeRule) (r : AttributeRule)
    (applied : List Rule) (e : Error)
    (hacc : ctx.account = some accID)
    (hget : s.pendingRepo.Get w.repo accID docID = .ok doc)
    (hpre : addRulesLoop ops pre doc [] = (.ok applied, docK))
    (hfail : ops.AttrKeyFromLabel r.KeyLabel = .error e ∨
      ∃ key, ops.AttrKeyFromLabel r.KeyLabel = .ok key ∧
        (ops.AddTransitionRuleForAttribute docK r.RoleID key).1 = .error e) :
    AddTransitionRules s ops w ctx docID ⟨pre ++ r :: post⟩ =
      (([], some e),
        { repo := w.repo, srv := w.srv, trace := w.trace ++ [Event.repoGet accID docID] }) ∧
    (∀ ev ∈ (AddTransitionRules s ops w ctx docID ⟨pre ++ r :: post⟩).2.trace,
      ev ∈ w.trace ∨ ev.isRepoUpdate = false) ∧
    s.pendingRepo.Get (AddTransitionRules s ops w ctx docID ⟨pre ++ r :: post⟩).2.repo
      accID docID = .ok doc := by
  have hloop : ∃ docE, addRulesLoop ops (pre ++ r :: post) doc [] = (.error e, docE) := by
    rw [addRulesLoop_append ops pre (r :: post) doc docK [] applied hpre]
    rcases hfail with hk | ⟨key, hk, ha⟩
    · exact ⟨docK, by simp [addRulesLoop, hk]⟩
    · cases hr : ops.AddTransitionRuleForAttribute docK r.RoleID key with
      | mk res doc1 =>
        rw [hr] at ha
        simp only at ha
        subst ha
        exact ⟨doc1, by simp [addRulesLoop, hk, hr]⟩
  obtain ⟨docE, hloop⟩ := hloop
  have h : AddTransitionRules s ops w ctx docID ⟨pre ++ r :: post⟩ =
      (([], some e),
        { repo := w.repo, srv := w.srv,
          trace := w.trace ++ [Event.repoGet accID docID] }) := by
    simp [AddTransitionRules, getDocumentAndAccount, AccountDID, hacc, repoGet, hget, hloop]
  rw [h]
  refine ⟨rfl, ?_, hget⟩
  intro ev hev
  simp only [List.mem_append, List.mem_singleton] at hev
  rcases hev with hev | hev
  · exact Or.inl hev
  · subst hev; exact Or.inr rfl

/-- Witness for C11, on the example world: the first rule of the request is
applied to the document in memory, the second names a role that is not found;
the error is returned and the repository holds what it held. -/
theorem AddTransitionRules_failure_no_update_witness :
    AddTransitionRules (exampleService true) exampleRuleWriter exampleWorld ⟨some [1]⟩ [5]
        ⟨[⟨"amount", [1]⟩, ⟨"total", [9]⟩, ⟨"date", [1]⟩]⟩ =
      (([], some (Error.other "role not found")),
        { repo := [(([1], [5]), 5)], srv := 0, trace := [Event.repoGet [1] [5]] }) :=
  (AddTransitionRules_failure_no_update (exampleService true) exampleRuleWriter exampleWorld
    ⟨some [1]⟩ [5] [1] 5 6 [⟨"amount", [1]⟩] [⟨"date", [1]⟩] ⟨"total", [9]⟩ [205]
    (Error.other "role not found") rfl rfl rfl (Or.inr ⟨"total", rfl, rfl⟩)).1

end pending

end Centrifuge

/-! ## The ledger transaction submitter -/

namespace Centrifuge

namespace ethereum

variable {Tx E : Type}

theorem invocations_append (t u : List Ev) :
    invocations (t ++ u) = invocations t + invocations u := by
  simp [invocations, List.count_append]

theorem sleeps_append (t u : List Ev) : sleeps (t ++ u) = sleeps t + sleeps u := by
  simp [sleeps, List.count_append]

theorem invocations_retried (k : Nat) : invocations (retried k) = k := by
  induction k with
  | zero => rfl
  | succ k ih =>
    rw [retried, invocations_append, ih]
    simp [invocations, Nat.add_comm]

theorem sleeps_retried (k : Nat) : sleeps (retried k) = k := by
  induction k with
  | zero => rfl
  | succ k ih =>
    rw [retried, sleeps_append, ih]
    simp [sleeps, Nat.add_comm]

/-- A pass that invokes the contract method and gets a conflict error goes
around again, having logged the warning and slept. -/
theorem loopBody_conflict (errorText : E → String) (maxTries : Int)
    (call : Nat → Option Tx × Option E) (st : LoopState Tx E) (e : E)
    (hdone : st.done = false) (hcur : st.current < maxTries)
    (herr : (call (invocations st.trace)).2 = some e) (hc : isConflict errorText e) :
    loopBody errorText maxTries call st =
      Iter.again { done := false, current := st.current + 1,
                   tx := (call (invocations st.trace)).1, err := some e,
                   trace := st.trace ++ [Ev.call, Ev.logWarning, Ev.sleep] } := by
  have hnot : ¬ (st.current ≥ maxTries) := not_le.mpr hcur
  have hc2 : errorText e = TransactionUnderpriced ∨ errorText e = NonceTooLow := hc
  simp only [loopBody, hdone, hnot, herr, hc2]
  simp

/-- A pass that invokes the contract method and gets no conflict error (no
error, or another one) sets `done`. -/
theorem loopBody_settled (errorText : E → String) (maxTries : Int)
    (call : Nat → Option Tx × Option E) (st : LoopState Tx E)
    (hdone : st.done = false) (hcur : st.current < maxTries)
    (hc : ∀ e, (call (invocations st.trace)).2 = some e → ¬ isConflict errorText e) :
    loopBody errorText maxTries call st =
      Iter.again { done := true, current := st.current + 1,
                   tx := (call (invocations st.trace)).1,
                   err := (call (invocations st.trace)).2,
                   trace := st.trace ++ [Ev.call] } := by
  have hnot : ¬ (st.current ≥ maxTries) := not_le.mpr hcur
  cases herr : (call (invocations st.trace)).2 with
  | none => simp [loopBody, hdone, hnot, herr]
  | some e =>
    have hc2 : ¬ (errorText e = TransactionUnderpriced ∨ errorText e = NonceTooLow) :=
      hc e herr
    simp [loopBody, hdone, hnot, herr, hc2]

theorem loop_leave {σ : Type} (body : σ → Iter σ) (fuel : Nat) {st final : σ}
    (h : body st = Iter.leave final) : loop body (fuel + 1) st = some final := by
  rw [loop, h]

theorem loop_again {σ : Type} (body : σ → Iter σ) (fuel : Nat) {st next : σ}
    (h : body st = Iter.again next) : loop body (fuel + 1) st = loop body fuel next := by
  rw [loop, h]

/-- A pass over a state with `done` set leaves the loop. -/
theorem loopBody_done (errorText : E → String) (maxTries : Int)
    (call : Nat → Option Tx × Option E) (st : LoopState Tx E) (hdone : st.done = true) :
    loopBody errorText maxTries call st = Iter.leave st := by
  simp [loopBody, hdone]

/-- A pass with the budget used up logs the error and leaves the loop. -/
theorem loopBody_exhausted (errorText : E → String) (maxTries : Int)
    (call : Nat → Option Tx × Option E) (st : LoopState Tx E)
    (hdone : st.done = false) (hcur : maxTries ≤ st.current) :
    loopBody errorText maxTries call st =
      Iter.leave { st with trace := st.trace ++ [Ev.logError] } := by
  have h : st.current ≥ maxTries := hcur
  simp [loopBody, hdone, h]

/-- From a state inside the budget: `k` invocations that fail with a conflict
error and one that returns a handle and no error. -/
theorem loop_retries_then_success (errorText : E → String) (maxTries : Int)
    (call : Nat → Option Tx × Option E) (tx : Tx) (k : Nat) :
    ∀ (st : LoopState Tx E) (fuel : Nat), st.done = false →
      st.current + k < maxTries →
      (∀ i, i < k → ∃ e, (call (invocations st.trace + i)).2 = some e ∧ isConflict errorText e) →
      call (invocations st.trace + k) = (some tx, none) →
      loop (loopBody errorText maxTries call) (fuel + k + 2) st =
        some { done := true, current := st.current + k + 1, tx := some tx, err := none,
               trace := st.trace ++ retried k ++ [Ev.call] } := by
  induction k with
  | zero =>
    intro st fuel hdone hcur _ hcall
    have hcur2 : st.current < maxTries := by simpa using hcur
    have hcall2 : call (invocations st.trace) = (some tx, none) := by simpa using hcall
    have hset := loopBody_settled errorText maxTries call st hdone hcur2
      (by intro e he; rw [hcall2] at he; cases he)
    rw [hcall2] at hset
    simp [loop, hset, loopBody_done, retried]
  | succ k ih =>
    intro st fuel hdone hcur hfail hcall
    obtain ⟨e, he, hce⟩ := hfail 0 (Nat.succ_pos k)
    have hcur2 : st.current < maxTries := by omega
    have hstep := loopBody_conflict errorText maxTries call st e hdone hcur2
      (by simpa using he) hce
    have hinv : invocations (st.trace ++ [Ev.call, Ev.logWarning, Ev.sleep])
        = invocations st.trace + 1 := by
      simp [invocations, List.count_append]
    have hloop : loop (loopBody errorText maxTries call) (fuel + (k + 1) + 2) st
        = loop (loopBody errorText maxTries call) (fuel + k + 2)
            { done := false, current := st.current + 1,
              tx := (call (invocations st.trace)).1, err := some e,
              trace := st.trace ++ [Ev.call, Ev.logWarning, Ev.sleep] } := by
      have hf : fuel + (k + 1) + 2 = (fuel + k + 2) + 1 := by omega
      rw [hf, loop, hstep]
    rw [hloop, ih _ fuel rfl]
    · simp only [retried, List.append_assoc]
      congr 1
      simp only [LoopState.mk.injEq, true_and, and_true]
      push_cast
      ring
    · simp only
      push_cast at hcur ⊢
      omega
    · intro i hi
      simp only [hinv]
      have := hfail (i + 1) (by omega)
      simpa [Nat.add_assoc, Nat.add_comm 1 i] using this
    · simp only [hinv]
      simpa [Nat.add_assoc, Nat.add_comm 1 k] using hcall

/-- From a state `k + 1` tries short of the budget: `k + 1` invocations that
fail with a conflict error use the budget up, and the loop is left with the
results of the last of them. -/
theorem loop_retries_exhausted (errorText : E → String) (maxTries : Int)
    (call : Nat → Option Tx × Option E) (k : Nat) :
    ∀ (st : LoopState Tx E) (fuel : Nat), st.done = false →
      st.current + (k + 1) = maxTries →
      (∀ i, i ≤ k → ∃ e, (call (invocations st.trace + i)).2 = some e ∧ isConflict errorText e) →
      loop (loopBody errorText maxTries call) (fuel + k + 2) st =
        some { done := false, current := maxTries,
               tx := (call (invocations st.trace + k)).1,
               err := (call (invocations st.trace + k)).2,
               trace := st.trace ++ retried (k + 1) ++ [Ev.logError] } := by
  induction k with
  | zero =>
    intro st fuel hdone hcur hfail
    obtain ⟨e, he, hce⟩ := hfail 0 (Nat.le_refl 0)
    have he2 : (call (invocations st.trace)).2 = some e := by simpa using he
    have hcur2 : st.current < maxTries := by omega
    have hstep := loopBody_conflict errorText maxTries call st e hdone hcur2 he2 hce
    have hexit := loopBody_exhausted errorText maxTries call
      { done := false, current := st.current + 1, tx := (call (invocations st.trace)).1,
        err := some e, trace := st.trace ++ [Ev.call, Ev.logWarning, Ev.sleep] } rfl
      (by simp only; omega)
    have hf : fuel + 0 + 2 = (fuel + 1) + 1 := by omega
    rw [hf, loop_again _ _ hstep, loop_leave _ _ hexit]
    have hcur3 : st.current + 1 = maxTries := by omega
    simp [retried, he2, hcur3]
  | succ k ih =>
    intro st fuel hdone hcur hfail
    obtain ⟨e, he, hce⟩ := hfail 0 (Nat.zero_le _)
    have he2 : (call (invocations st.trace)).2 = some e := by simpa using he
    have hcur2 : st.current < maxTries := by omega
    have hstep := loopBody_conflict errorText maxTries call st e hdone hcur2 he2 hce
    have hinv : invocations (st.trace ++ [Ev.call, Ev.logWarning, Ev.sleep])
        = invocations st.trace + 1 := by
      simp [invocations, List.count_append]
    have hf : fuel + (k + 1) + 2 = (fuel + k + 2) + 1 := by omega
    rw [hf, loop_again _ _ hstep, ih _ fuel rfl]
    · simp only [hinv]
      have ha : invocations st.trace + 1 + k = invocations st.trace + (k + 1) := by omega
      rw [ha]
      simp [retried, List.append_assoc]
    · simp only
      push_cast at hcur ⊢
      omega
    · intro i hi
      simp only [hinv]
      have := hfail (i + 1) (by omega)
      simpa [Nat.add_assoc, Nat.add_comm 1 i] using this

/-- Whatever the contract method returns, fuel for one pass more than the tries
left reaches the return, with at most as many further invocations as there are
tries left. -/
theorem loop_bounded (errorText : E → String) (maxTries : Int)
    (call : Nat → Option Tx × Option E) (fuel : Nat) :
    ∀ (st : LoopState Tx E), (maxTries - st.current).toNat + 1 ≤ fuel →
      ∃ final, loop (loopBody errorText maxTries call) fuel st = some final ∧
        invocations final.trace ≤ invocations st.trace + (maxTries - st.current).toNat := by
  induction fuel with
  | zero => intro st h; omega
  | succ fuel ih =>
    intro st hfuel
    by_cases hdone : st.done = true
    · exact ⟨st, loop_leave _ _ (loopBody_done errorText maxTries call st hdone),
        Nat.le_add_right _ _⟩
    · have hdone2 : st.done = false := by simpa using hdone
      by_cases hcur : maxTries ≤ st.current
      · refine ⟨_, loop_leave _ _ (loopBody_exhausted errorText maxTries call st hdone2 hcur), ?_⟩
        simp [invocations, List.count_append]
      · have hcur2 : st.current < maxTries := not_le.mp hcur
        have hleft : (maxTries - (st.current + 1)).toNat + 1 = (maxTries - st.current).toNat := by
          omega
        by_cases hc : ∃ e, (call (invocations st.trace)).2 = some e ∧ isConflict errorText e
        · obtain ⟨e, he, hce⟩ := hc
          have hstep := loopBody_conflict errorText maxTries call st e hdone2 hcur2 he hce
          obtain ⟨final, hfinal, hle⟩ := ih
            { done := false, current := st.current + 1, tx := (call (invocations st.trace)).1,
              err := some e, trace := st.trace ++ [Ev.call, Ev.logWarning, Ev.sleep] }
            (by simp only; omega)
          refine ⟨final, by rw [loop_again _ _ hstep, hfinal], ?_⟩
          have hinv : invocations (st.trace ++ [Ev.call, Ev.logWarning, Ev.sleep])
              = invocations st.trace + 1 := by
            simp [invocations, List.count_append]
          simp only [hinv] at hle
          omega
        · have hstep := loopBody_settled errorText maxTries call st hdone2 hcur2
            (by intro e he hce; exact hc ⟨e, he, hce⟩)
          obtain ⟨final, hfinal, hle⟩ := ih
            { done := true, current := st.current + 1, tx := (call (invocations st.trace)).1,
              err := (call (invocations st.trace)).2, trace := st.trace ++ [Ev.call] }
            (by simp only; omega)
          refine ⟨final, by rw [loop_again _ _ hstep, hfinal], ?_⟩
          have hinv : invocations (st.trace ++ [Ev.call]) = invocations st.trace + 1 := by
            simp [invocations, List.count_append]
          simp only [hinv] at hle
          omega

/-- C4. When the first `k < maxTries` invocations of the contract method fail
with an error whose message is "replacement transaction underpriced" or "nonce
too low" and the next one returns the handle `tx` and no error,
`SubmitTransactionWithRetries` returns `(tx, nil)`; what it does is `k` times
an invocation followed by the warning and a sleep, and then one invocation: it
invokes `k + 1` times and sleeps `k` times. Any fuel from `k + 2` on reaches
the return. -/
theorem SubmitTransactionWithRetries_retries_then_success (errorText : E → String)
    (maxTries : Int) (call : Nat → Option Tx × Option E) (tx : Tx) (k fuel : Nat)
    (hk : (k : Int) < maxTries)
    (hfail : ∀ i, i < k → ∃ e, (call i).2 = some e ∧
      (errorText e = TransactionUnderpriced ∨ errorText e = NonceTooLow))
    (hok : call k = (some tx, none))
    (hfuel : k + 2 ≤ fuel) :
    SubmitTransactionWithRetries errorText maxTries call fuel =
      some { done := true, current := k + 1, tx := some tx, err := none,
             trace := retried k ++ [Ev.call] } ∧
    invocations (retried k ++ [Ev.call]) = k + 1 ∧
    sleeps (retried k ++ [Ev.call]) = k := by
  obtain ⟨f, rfl⟩ := Nat.exists_eq_add_of_le hfuel
  refine ⟨?_, ?_, ?_⟩
  · have h := loop_retries_then_success errorText maxTries call tx k initial f rfl
      (by simpa [initial] using hk)
      (by intro i hi; simpa [initial, invocations] using hfail i hi)
      (by simpa [initial, invocations] using hok)
    have hf : k + 2 + f = f + k + 2 := by omega
    rw [SubmitTransactionWithRetries, hf, h]
    simp [initial]
  · rw [invocations_append, invocations_retried]
    rfl
  · rw [sleeps_append, sleeps_retried]
    rfl

/-- Witness for C4: two failures with "nonce too low", then success, with a
budget of 5. -/
theorem SubmitTransactionWithRetries_retries_then_success_witness :
    SubmitTransactionWithRetries id 5 (exampleCall 2) 4 =
      some { done := true, current := 3, tx := some 42, err := none,
             trace := [Ev.call, Ev.logWarning, Ev.sleep, Ev.call, Ev.logWarning, Ev.sleep,
                       Ev.call] } ∧
    invocations (retried 2 ++ [Ev.call]) = 3 ∧
    sleeps (retried 2 ++ [Ev.call]) = 2 :=
  SubmitTransactionWithRetries_retries_then_success id 5 (exampleCall 2) 42 2 4 (by decide)
    (by
      intro i hi
      exact ⟨NonceTooLow, by simp [exampleCall, hi], Or.inr rfl⟩)
    (by simp [exampleCall]) (by decide)

/-- C5. With a budget of at least one try, when the first invocation of the
contract method fails with an error whose message is neither "replacement
transaction underpriced" nor "nonce too low", `SubmitTransactionWithRetries`
returns that error (and what the invocation returned as handle); all it does
is that one invocation: it does not sleep. Any fuel from 2 on reaches the
return. -/
theorem SubmitTransactionWithRetries_fatal (errorText : E → String) (maxTries : Int)
    (call : Nat → Option Tx × Option E) (e : E) (fuel : Nat)
    (hmax : 1 ≤ maxTries)
    (herr : (call 0).2 = some e)
    (hfatal : errorText e ≠ TransactionUnderpriced ∧ errorText e ≠ NonceTooLow)
    (hfuel : 2 ≤ fuel) :
    SubmitTransactionWithRetries errorText maxTries call fuel =
      some { done := true, current := 1, tx := (call 0).1, err := some e,
             trace := [Ev.call] } ∧
    invocations [Ev.call] = 1 ∧ sleeps [Ev.call] = 0 := by
  obtain ⟨f, rfl⟩ := Nat.exists_eq_add_of_le hfuel
  refine ⟨?_, rfl, rfl⟩
  have hset := loopBody_settled errorText maxTries call (initial : LoopState Tx E) rfl
    (by simpa [initial] using hmax)
    (by
      intro e2 he2
      have h0 : (call 0).2 = some e2 := by simpa [initial, invocations] using he2
      rw [herr] at h0
      cases h0
      intro hc
      rcases hc with hc | hc
      · exact hfatal.1 hc
      · exact hfatal.2 hc)
  have hf : 2 + f = (f + 1) + 1 := by omega
  rw [SubmitTransactionWithRetries, hf, loop_again _ _ hset,
    loop_leave _ _ (loopBody_done errorText maxTries call _ rfl)]
  simp [initial, invocations, herr]

/-- Witness for C5: a contract method that fails with "out of gas", with a
budget of 5. -/
theorem SubmitTransactionWithRetries_fatal_witness :
    SubmitTransactionWithRetries id 5 exampleFatal 2 =
      some { done := true, current := 1, tx := none, err := some "out of gas",
             trace := [Ev.call] } ∧
    invocations [Ev.call] = 1 ∧ sleeps [Ev.call] = 0 :=
  SubmitTransactionWithRetries_fatal id 5 exampleFatal "out of gas" 2 (by decide) rfl
    (by decide) (by decide)

/-- C6, as stated, fails: with a budget of one try and a contract method that
always fails with "nonce too low", what `SubmitTransactionWithRetries` returns
as error is the error of the invocation itself, whose message is "nonce too
low": a conflict error, not one that says the retries are exhausted. -/
theorem retries_exhausted_returns_bare_conflict :
    SubmitTransactionWithRetries id 1 exampleConflict 2 =
      some { done := false, current := 1, tx := none, err := (exampleConflict 0).2,
             trace := [Ev.call, Ev.logWarning, Ev.sleep, Ev.logError] } ∧
    (exampleConflict 0).2 = some "nonce too low" ∧
    isConflict id "nonce too low" := by
  refine ⟨rfl, rfl, Or.inr rfl⟩

/-- C6, amended. With a budget of at least one try, when every invocation of
the contract method within the budget fails with a conflict error,
`SubmitTransactionWithRetries` returns the error (and the handle) of the last
invocation as it is, a conflict error; it has invoked the method `maxTries`
times, each time followed by the warning and a sleep, and logged that the
tries are used up. Any fuel from `maxTries + 1` on reaches the return. -/
theorem SubmitTransactionWithRetries_exhausted (errorText : E → String) (maxTries : Int)
    (call : Nat → Option Tx × Option E) (fuel : Nat)
    (hmax : 1 ≤ maxTries)
    (hfail : ∀ i : Nat, (i : Int) < maxTries →
      ∃ e, (call i).2 = some e ∧ isConflict errorText e)
    (hfuel : maxTries.toNat + 1 ≤ fuel) :
    SubmitTransactionWithRetries errorText maxTries call fuel =
      some { done := false, current := maxTries,
             tx := (call (maxTries.toNat - 1)).1, err := (call (maxTries.toNat - 1)).2,
             trace := retried maxTries.toNat ++ [Ev.logError] } ∧
    (∃ e, (call (maxTries.toNat - 1)).2 = some e ∧ isConflict errorText e) ∧
    invocations (retried maxTries.toNat ++ [Ev.logError]) = maxTries.toNat := by
  obtain ⟨k, hk⟩ : ∃ k : Nat, maxTries.toNat = k + 1 := ⟨maxTries.toNat - 1, by omega⟩
  obtain ⟨f, rfl⟩ := Nat.exists_eq_add_of_le hfuel
  have hmk : maxTries = (k : Int) + 1 := by omega
  refine ⟨?_, ?_, ?_⟩
  · have h := loop_retries_exhausted errorText maxTries call k initial f rfl
      (by simp [initial, hmk])
      (by
        intro i hi
        have := hfail i (by omega)
        simpa [initial, invocations] using this)
    have hf : maxTries.toNat + 1 + f = f + k + 2 := by omega
    rw [SubmitTransactionWithRetries, hf, h, hk]
    simp [initial, invocations]
  · rw [hk]
    exact hfail k (by omega)
  · rw [invocations_append, invocations_retried]
    rfl

/-- Witness for C6 as amended: a contract method that always fails with "nonce
too low", with a budget of 3. -/
theorem SubmitTransactionWithRetries_exhausted_witness :
    SubmitTransactionWithRetries id 3 exampleConflict 4 =
      some { done := false, current := 3, tx := none, err := some "nonce too low",
             trace := retried 3 ++ [Ev.logError] } :=
  (SubmitTransactionWithRetries_exhausted id 3 exampleConflict 4 (by decide)
    (fun _ _ => ⟨NonceTooLow, rfl, Or.inr rfl⟩) (by decide)).1

/-- C7. For every budget `maxTries` and whatever the invocations of the
contract method return, `SubmitTransactionWithRetries` returns (any fuel from
`max(maxTries, 0) + 1` on reaches the return), and it has invoked the method
at most `max(maxTries, 0)` times. -/
theorem SubmitTransactionWithRetries_terminates (errorText : E → String) (maxTries : Int)
    (call : Nat → Option Tx × Option E) (fuel : Nat)
    (hfuel : maxTries.toNat + 1 ≤ fuel) :
    ∃ final, SubmitTransactionWithRetries errorText maxTries call fuel = some final ∧
      (invocations final.trace : Int) ≤ max maxTries 0 := by
  obtain ⟨final, hfinal, hle⟩ := loop_bounded errorText maxTries call fuel
    (initial : LoopState Tx E) (by simpa [initial] using hfuel)
  refine ⟨final, hfinal, ?_⟩
  have h0 : invocations (initial : LoopState Tx E).trace = 0 := rfl
  have h1 : (maxTries - (initial : LoopState Tx E).current).toNat = maxTries.toNat := by
    simp [initial]
  rw [h0, h1] at hle
  have h2 : ((maxTries.toNat : Nat) : Int) = max maxTries 0 := Int.toNat_eq_max maxTries
  omega

/-- Witness for C7: a budget of 3 against a contract method that always fails
with "nonce too low". -/
theorem SubmitTransactionWithRetries_terminates_witness :
    (3 : Int).toNat + 1 ≤ 4 ∧
    ∃ final, SubmitTransactionWithRetries id 3 exampleConflict 4 = some final ∧
      (invocations final.trace : Int) ≤ max 3 0 :=
  ⟨by decide, SubmitTransactionWithRetries_terminates id 3 exampleConflict 4 (by decide)⟩

/-- C15. With a budget `maxTries <= 0`, `SubmitTransactionWithRetries` leaves
its loop on the first pass: it never invokes the contract method (all it does
is log that the tries are used up) and returns `(nil, nil)`, no handle and no
error. Any fuel from 1 on reaches the return. -/
theorem SubmitTransactionWithRetries_no_budget (errorText : E → String) (maxTries : Int)
    (call : Nat → Option Tx × Option E) (fuel : Nat)
    (hmax : maxTries ≤ 0) (hfuel : 1 ≤ fuel) :
    SubmitTransactionWithRetries errorText maxTries call fuel =
      some { done := false, current := 0, tx := none, err := none, trace := [Ev.logError] } ∧
    invocations [Ev.logError] = 0 := by
  obtain ⟨f, rfl⟩ := Nat.exists_eq_add_of_le hfuel
  refine ⟨?_, rfl⟩
  have hexit := loopBody_exhausted errorText maxTries call (initial : LoopState Tx E) rfl
    (by simpa [initial] using hmax)
  have hf : 1 + f = f + 1 := by omega
  rw [SubmitTransactionWithRetries, hf, loop_leave _ _ hexit]
  simp [initial]

/-- Witness for C15: a budget of 0 and of -2 against a contract method that
would return a handle at once. -/
theorem SubmitTransactionWithRetries_no_budget_witness :
    SubmitTransactionWithRetries id 0 (exampleCall 0) 1 =
      some { done := false, current := 0, tx := none, err := none, trace := [Ev.logError] } ∧
    SubmitTransactionWithRetries id (-2) (exampleCall 0) 3 =
      some { done := false, current := 0, tx := none, err := none, trace := [Ev.logError] } :=
  ⟨(SubmitTransactionWithRetries_no_budget id 0 (exampleCall 0) 1 (by decide) (by decide)).1,
   (SubmitTransactionWithRetries_no_budget id (-2) (exampleCall 0) 3 (by decide) (by decide)).1⟩

end ethereum

end Centrifuge

/-! ## Signatures and the anchoring of a core document -/

namespace Centrifuge

namespace signatures

variable {CentID Err : Type}

/-- C13. `ValidateSignature` returns no error if and only if the `EntityId` of
the signature parses as an identity, `identity.ValidateKey` accepts the public
key of the signature for that identity, and the library verifies the signature
bytes for that key and the message; when the first two hold and the library
does not verify, the error is the one with the message "invalid signature". -/
theorem ValidateSignature_ok_iff (identity : Identity CentID Err) (ed : Ed25519)
    (signature : Signature) (message : Bytes) :
    (ValidateSignature identity ed signature message = none ↔
      ∃ centID, identity.NewCentID signature.EntityId = .ok centID ∧
        identity.ValidateKey centID signature.PublicKey = none ∧
        ed.Verify signature.PublicKey message signature.Signature = true) ∧
    (∀ centID, identity.NewCentID signature.EntityId = .ok centID →
      identity.ValidateKey centID signature.PublicKey = none →
      ed.Verify signature.PublicKey message signature.Signature = false →
      ValidateSignature identity ed signature message
        = some (SigError.text "invalid signature")) := by
  refine ⟨?_, ?_⟩
  · cases hid : identity.NewCentID signature.EntityId with
    | error e => simp [ValidateSignature, hid]
    | ok centID =>
      cases hkey : identity.ValidateKey centID signature.PublicKey with
      | some e => simp [ValidateSignature, hid, hkey]
      | none =>
        cases hver : ed.Verify signature.PublicKey message signature.Signature <;>
          simp [ValidateSignature, hid, hkey, verifySignature, hver]
  · intro centID hid hkey hver
    simp [ValidateSignature, hid, hkey, verifySignature, hver]

/-- Witness for C13, on the example identity and scheme: a signature of the
example configuration over `[4, 2]` validates, and the same signature does not
validate for the message `[4, 3]`. -/
theorem ValidateSignature_ok_iff_witness :
    ValidateSignature exampleIdentity exampleEd25519
        ⟨[1, 2, 3, 4, 5, 6], [7, 7], [7, 7, 4, 2], 1000⟩ [4, 2] = none ∧
    ValidateSignature exampleIdentity exampleEd25519
        ⟨[1, 2, 3, 4, 5, 6], [7, 7], [7, 7, 4, 2], 1000⟩ [4, 3]
      = some (SigError.text "invalid signature") :=
  ⟨(ValidateSignature_ok_iff exampleIdentity exampleEd25519
      ⟨[1, 2, 3, 4, 5, 6], [7, 7], [7, 7, 4, 2], 1000⟩ [4, 2]).1.2
      ⟨[1, 2, 3, 4, 5, 6], rfl, rfl, by decide⟩,
   (ValidateSignature_ok_iff exampleIdentity exampleEd25519
      ⟨[1, 2, 3, 4, 5, 6], [7, 7], [7, 7, 4, 2], 1000⟩ [4, 3]).2
      [1, 2, 3, 4, 5, 6] rfl rfl (by decide)⟩

/-- C14. For a library that is correct for the key pairs `keyPair`, and an
identity configuration whose private and public key are such a pair: the
signature that `Sign` returns for a payload carries the identifier and the
public key of the configuration, and `verifySignature` of its public key, the
payload and its signature bytes returns no error. -/
theorem Sign_then_verify (ed : Ed25519) (keyPair : Bytes → Bytes → Prop) (now : Nat)
    (idConfig : IdentityConfig) (payload : Bytes)
    (hcorrect : ed.Correct keyPair)
    (hpair : keyPair idConfig.PrivateKey idConfig.PublicKey) :
    (Sign ed now idConfig payload).EntityId = idConfig.ID ∧
    (Sign ed now idConfig payload).PublicKey = idConfig.PublicKey ∧
    (verifySignature ed (Sign ed now idConfig payload).PublicKey payload
      (Sign ed now idConfig payload).Signature : Option (SigError Err)) = none := by
  refine ⟨rfl, rfl, ?_⟩
  have h := hcorrect idConfig.PrivateKey idConfig.PublicKey payload hpair
  simp [verifySignature, Sign, h]

/-- Witness for C14, on the example scheme and configuration. -/
theorem Sign_then_verify_witness :
    (Sign exampleEd25519 1000 exampleIDConfig [4, 2]).EntityId = [1, 2, 3, 4, 5, 6] ∧
    (Sign exampleEd25519 1000 exampleIDConfig [4, 2]).PublicKey = [7, 7] ∧
    (verifySignature exampleEd25519 (Sign exampleEd25519 1000 exampleIDConfig [4, 2]).PublicKey
      [4, 2] (Sign exampleEd25519 1000 exampleIDConfig [4, 2]).Signature
        : Option (SigError String)) = none :=
  Sign_then_verify exampleEd25519 exampleKeyPair 1000 exampleIDConfig [4, 2]
    (by
      intro priv pub msg h
      have h2 : priv = pub := h
      subst h2
      simp [exampleEd25519])
    rfl

end signatures

namespace coredocumentprocessor

variable {R Err : Type}

/-- C12. `Anchor` returns the error of the first step that fails, in the order
nil check, conversion of `CurrentIdentifier`, `CalculateSigningRoot`,
`GetIDConfig`, `Create` of the store under `CurrentIdentifier`, and takes no
step after it. For a nil document, an identifier that does not convert, a
failing signing root or a failing `GetIDConfig`, no signature is appended and
the store is neither called nor changed; the document is `nil`, as it was, or
as `CalculateSigningRoot` left it. When all steps succeed there is no error,
and the document with the signature of its signing root appended is what was
given to `Create`. -/
theorem Anchor_first_failure (c : Collaborators R Err) (repo : R) :
    (Anchor c repo none
      = { err := some c.NilError, document := none, repo := repo, trace := [] } ∧
      notSignedNorStored (Anchor c repo none).trace) ∧
    (∀ doc e, c.SliceToByte32 doc.CurrentIdentifier = .error e →
      Anchor c repo (some doc)
        = { err := some e, document := some doc, repo := repo,
            trace := [Step.sliceToByte32, Step.logError] } ∧
      notSignedNorStored (Anchor c repo (some doc)).trace) ∧
    (∀ doc id e doc1, c.SliceToByte32 doc.CurrentIdentifier = .ok id →
      c.CalculateSigningRoot doc = (some e, doc1) →
      Anchor c repo (some doc)
        = { err := some e, document := some doc1, repo := repo,
            trace := [Step.sliceToByte32, Step.logInfo, Step.logDebug,
                      Step.calculateSigningRoot, Step.logError] } ∧
      notSignedNorStored (Anchor c repo (some doc)).trace) ∧
    (∀ doc id doc1 e, c.SliceToByte32 doc.CurrentIdentifier = .ok id →
      c.CalculateSigningRoot doc = (none, doc1) →
      c.GetIDConfig = .error e →
      Anchor c repo (some doc)
        = { err := some e, document := some doc1, repo := repo,
            trace := [Step.sliceToByte32, Step.logInfo, Step.logDebug,
                      Step.calculateSigningRoot, Step.getIDConfig] } ∧
      notSignedNorStored (Anchor c repo (some doc)).trace) ∧
    (∀ doc id doc1 idConfig, c.SliceToByte32 doc.CurrentIdentifier = .ok id →
      c.CalculateSigningRoot doc = (none, doc1) →
      c.GetIDConfig = .ok idConfig →
      Anchor c repo (some doc)
        = { err := (c.Create repo doc1.CurrentIdentifier
                      { doc1 with Signatures := doc1.Signatures ++
                          [signatures.Sign c.ed c.now idConfig doc1.SigningRoot] }).1,
            document := some { doc1 with Signatures := doc1.Signatures ++
                          [signatures.Sign c.ed c.now idConfig doc1.SigningRoot] },
            repo := (c.Create repo doc1.CurrentIdentifier
                      { doc1 with Signatures := doc1.Signatures ++
                          [signatures.Sign c.ed c.now idConfig doc1.SigningRoot] }).2,
            trace := [Step.sliceToByte32, Step.logInfo, Step.logDebug,
                      Step.calculateSigningRoot, Step.getIDConfig, Step.appendSignature,
                      Step.repositoryCreate] }) := by
  refine ⟨⟨rfl, ?_⟩, ?_, ?_, ?_, ?_⟩
  · simp [Anchor, notSignedNorStored]
  · intro doc e hs
    simp [Anchor, hs, notSignedNorStored]
  · intro doc id e doc1 hs hr
    simp [Anchor, hs, hr, notSignedNorStored]
  · intro doc id doc1 e hs hr hc
    simp [Anchor, hs, hr, hc, notSignedNorStored]
  · intro doc id doc1 idConfig hs hr hc
    simp [Anchor, hs, hr, hc]

/-- Witness for C12, on the example collaborators and an empty store: an
identifier of two bytes does not convert, and a document without an
identifier of its own has no signing root; in both cases nothing is signed or
stored. The example document is anchored without error. -/
theorem Anchor_first_failure_witness :
    Anchor exampleCollaborators []
        (some { exampleDocument with CurrentIdentifier := [2, 2] })
      = { err := some "invalid length",
          document := some { exampleDocument with CurrentIdentifier := [2, 2] },
          repo := [], trace := [Step.sliceToByte32, Step.logError] } ∧
    (Anchor exampleCollaborators []
        (some { exampleDocument with DocumentIdentifier := [] })).err
      = some "no document identifier" ∧
    (Anchor exampleCollaborators []
        (some { exampleDocument with DocumentIdentifier := [] })).repo = [] ∧
    (Anchor exampleCollaborators [] (some exampleDocument)).err = none :=
  ⟨((Anchor_first_failure exampleCollaborators []).2.1
      { exampleDocument with CurrentIdentifier := [2, 2] } "invalid length" rfl).1,
   congrArg Anchored.err
    (((Anchor_first_failure exampleCollaborators []).2.2.1
      { exampleDocument with DocumentIdentifier := [] } (List.replicate 32 2)
      "no document identifier" { exampleDocument with DocumentIdentifier := [] } rfl rfl).1),
   congrArg Anchored.repo
    (((Anchor_first_failure exampleCollaborators []).2.2.1
      { exampleDocument with DocumentIdentifier := [] } (List.replicate 32 2)
      "no document identifier" { exampleDocument with DocumentIdentifier := [] } rfl rfl).1),
   congrArg Anchored.err
    ((Anchor_first_failure exampleCollaborators []).2.2.2.2
      exampleDocument (List.replicate 32 2) { exampleDocument with SigningRoot := [9] }
      signatures.exampleIDConfig rfl rfl rfl)⟩

end coredocumentprocessor

end Centrifuge
